import Mathlib

/-!
# Verification of the invoice reconciliation core

Shallow embedding of the matching and reconciliation engine:

* `reconciliation_project/domain/rules.py` — `InvoiceNormalizer`,
  `AmountValidator`, `VendorMatcher`, `ConfidenceCalculator`;
* `Refactored_Package/reconciliation_project/domain/service.py` —
  `ReconciliationService`;
* `Refactored_Package/reconciliation_project/domain/models.py` —
  `Invoice`, `InvoiceMatch`, `Discrepancy`, `ReconciliationResult`.

Python strings are modelled as `List Char` (the inputs exercised here are
ASCII, where Python's `str.upper`, `str.strip`, `str.split` and the regular
expressions of `rules.py` coincide with the character-level model below).
Python `Decimal` values are modelled as exact rationals `ℚ`: `Decimal`
arithmetic (`+`, `-`, `abs`, negation, comparison) on 2-decimal-place values
is exact, and `quantize(Decimal('0.01'), ROUND_HALF_UP)` is the round-half-up
(away from zero on ties) map modelled by `quantize` below.  Python floats
produced by `VendorMatcher`/`ConfidenceCalculator` are likewise modelled as
exact rationals.
-/

/-- A Python `str`, modelled as its list of characters. -/
abbrev PyStr := List Char

/-- The ASCII whitespace characters recognised by Python's `str.strip`,
`str.split` and the regex class `\s`. -/
def isPySpace (c : Char) : Bool :=
  c == ' ' || c == '\t' || c == '\n' || c == '\r' || c == '\x0b' || c == '\x0c'

/-- Python `str.upper` (ASCII fragment). -/
def pyUpper (s : PyStr) : PyStr := s.map Char.toUpper

/-- Python `str.strip()`: remove leading and trailing whitespace. -/
def pyStrip (s : PyStr) : PyStr :=
  ((s.dropWhile isPySpace).reverse.dropWhile isPySpace).reverse

/-- Worker for `pySplit`, accumulating the current word reversed. -/
def pySplitAux : PyStr → PyStr → List PyStr
  | [], acc => if acc.isEmpty then [] else [acc.reverse]
  | c :: rest, acc =>
    if isPySpace c then
      if acc.isEmpty then pySplitAux rest [] else acc.reverse :: pySplitAux rest []
    else pySplitAux rest (c :: acc)

/-- Python `str.split()` with no argument: split on runs of whitespace,
producing no empty words. -/
def pySplit (s : PyStr) : List PyStr := pySplitAux s []

/-- Python's substring test `a in b` for strings: `a` occurs contiguously
inside `b` (the empty string occurs in every string). -/
def isInfixB (a : PyStr) : PyStr → Bool
  | [] => a.isEmpty
  | c :: rest => List.isPrefixOf a (c :: rest) || isInfixB a rest

/-- Python's regex class `\w` on the alphabet used here: letters, digits and
the underscore.  The substitution `re.sub(r'[^\w\d]', '', s)` keeps exactly
these characters. -/
def isWordChar (c : Char) : Bool := c.isAlpha || c.isDigit || c == '_'

/-- The branches of the anchored alternation
`^(INV|INVOICE|DOC|FAKTURA|№|NO\.?|#)` of
`InvoiceNormalizer.normalize_invoice_number`, in the order the Python regex
engine tries them (leftmost alternative first; within `NO\.?` the greedy
optional dot is tried first).  Because the remainder of the pattern can match
the empty string, the branch that wins is the first one in this list that is
a prefix of the subject — in particular `INV` shadows `INVOICE`. -/
def reTokens : List PyStr :=
  ["INV".toList, "INVOICE".toList, "DOC".toList, "FAKTURA".toList,
   ['№'], "NO.".toList, "NO".toList, ['#']]

/-- The tail `\s*[-:]?\s*` of the same regex: greedy whitespace, one optional
colon or dash, greedy whitespace. -/
def dropSep (s : PyStr) : PyStr :=
  let s1 := s.dropWhile isPySpace
  let s2 := match s1 with
    | c :: rest => if c == '-' || c == ':' then rest else s1
    | [] => s1
  s2.dropWhile isPySpace

/-- `re.sub(r'^(INV|INVOICE|DOC|FAKTURA|№|NO\.?|#)\s*[-:]?\s*', '', s)`:
remove the leading token (first matching branch) and the separator run, or
leave `s` unchanged when no branch matches at the start. -/
def stripReTokens (s : PyStr) : PyStr :=
  match reTokens.find? (fun t => List.isPrefixOf t s) with
  | some t => dropSep (s.drop t.length)
  | none => s

/-- Embedding of `InvoiceNormalizer.normalize_invoice_number`.  Empty (or
`None`, equally falsy) input yields the empty string; otherwise uppercase and
trim, strip one leading token with its separator, then drop every character
outside `\w`. -/
def normalize_invoice_number (s : PyStr) : PyStr :=
  if s.isEmpty then []
  else (stripReTokens (pyStrip (pyUpper s))).filter isWordChar

/-- Embedding of `InvoiceNormalizer.normalize_vendor`: uppercase and trim. -/
def normalize_vendor (s : PyStr) : PyStr :=
  if s.isEmpty then [] else pyStrip (pyUpper s)

/-- `Decimal.quantize(Decimal('0.01'), rounding=ROUND_HALF_UP)` expressed in
cents: round `100·q` to the nearest integer, ties away from zero (`⌊x + 1/2⌋`
rounds to nearest with ties upward, mirrored for negative input). -/
def roundHalfUpCents (q : ℚ) : ℤ :=
  if 0 ≤ q then ⌊100 * q + 1 / 2⌋ else -⌊100 * (-q) + 1 / 2⌋

/-- The quantized value itself: `q` rounded to two decimal places,
round-half-up (away from zero).  This is `AmountValidator.normalize_amount`
restricted to well-formed numeric input (`Decimal(str(x))` re-parses a
numeric `x` exactly; the fallible general form is `normalize_amount`
below). -/
def quantize (q : ℚ) : ℚ := (roundHalfUpCents q : ℚ) / 100

/-- Embedding of `AmountValidator.amounts_match`: absolute difference within
tolerance. -/
def amounts_match (tol a b : ℚ) : Bool := decide (|a - b| ≤ tol)

/-- Embedding of `AmountValidator.amounts_consistent`: quantize both sides,
then accept a direct match, a sign-flipped match, or an absolute-value
match. -/
def amounts_consistent (tol evd_amt pdf_amt : ℚ) : Bool :=
  let evd := quantize evd_amt
  let pdf := quantize pdf_amt
  amounts_match tol evd pdf || amounts_match tol evd (-pdf) ||
    amounts_match tol |evd| |pdf|

/-- Embedding of `AmountValidator.calculate_difference`: `0.00` when the
amounts are consistent under some convention, otherwise the absolute
difference of the quantized values. -/
def calculate_difference (tol evd_amt pdf_amt : ℚ) : ℚ :=
  if amounts_consistent tol evd_amt pdf_amt then 0
  else |quantize evd_amt - quantize pdf_amt|

/-- The Python exceptions relevant to `AmountValidator.normalize_amount`:
`decimal.InvalidOperation` (raised by the `Decimal` constructor on an
unparseable string, and derived from `ArithmeticError`) and the three types
named in the `except` clause. -/
inductive PyExn
  | invalidOperation
  | valueError
  | typeError
  | attributeError
deriving DecidableEq

/-- A Python value passed to `normalize_amount`: a number (`int`, `float` or
`Decimal`, whose `str()` form re-parses to the same value), a string, or
`None` (whose `str()` form is the unparseable literal `"None"`). -/
inductive PyVal
  | num (q : ℚ)
  | strV (s : PyStr)
  | noneV
deriving DecidableEq

/-- Numeric value of a digit run. -/
def digitsVal (ds : List Char) : ℕ :=
  ds.foldl (fun a c => 10 * a + (c.toNat - 48)) 0

/-- Parse an unsigned fixed-point decimal literal: digits, optionally a dot
and digits, with at least one digit present. -/
def parseUnsigned (s : PyStr) : Option ℚ :=
  let intPart := s.takeWhile Char.isDigit
  let rest := s.dropWhile Char.isDigit
  match rest with
  | [] => if intPart.isEmpty then none else some (digitsVal intPart)
  | '.' :: frac =>
    if frac.all Char.isDigit && !(intPart.isEmpty && frac.isEmpty) then
      some ((digitsVal intPart : ℚ) + (digitsVal frac : ℚ) / (10 ^ frac.length))
    else none
  | _ => none

/-- The fragment of the `Decimal` constructor grammar exercised here:
optional surrounding whitespace, optional sign, fixed-point digits.  Any
other string makes the constructor (or, for `NaN`/`Infinity`, the subsequent
`quantize`) raise `decimal.InvalidOperation`. -/
def parseDecimal (s : PyStr) : Option ℚ :=
  let t := pyStrip s
  match t with
  | '+' :: r => parseUnsigned r
  | '-' :: r => (parseUnsigned r).map Neg.neg
  | _ => parseUnsigned t

/-- Embedding of `AmountValidator.normalize_amount` on arbitrary values:
`Decimal(str(value)).quantize(Decimal('0.01'), ROUND_HALF_UP)` inside
`try/except (ValueError, TypeError, AttributeError)`.  An unparseable string
— including `str(None) = "None"` — makes the `Decimal` constructor raise
`decimal.InvalidOperation`, which derives from `ArithmeticError`, matches
none of the three caught types, and therefore propagates to the caller. -/
def normalize_amount : PyVal → Except PyExn ℚ
  | .num q => .ok (quantize q)
  | .strV s =>
    match parseDecimal s with
    | some q => .ok (quantize q)
    | none => .error .invalidOperation
  | .noneV =>
    match parseDecimal "None".toList with
    | some q => .ok (quantize q)
    | none => .error .invalidOperation

/-- Embedding of `VendorMatcher.calculate_similarity`: empty input gives 0;
equality of the uppercased, trimmed forms gives 1; substring containment of
those forms gives 0.8; otherwise the Jaccard index of the whitespace-split
word sets (with the source's guards for empty word sets and zero union). -/
def calculate_similarity (vendor1 vendor2 : PyStr) : ℚ :=
  if vendor1.isEmpty || vendor2.isEmpty then 0
  else
    let v1 := pyStrip (pyUpper vendor1)
    let v2 := pyStrip (pyUpper vendor2)
    if v1 = v2 then 1
    else if isInfixB v1 v2 || isInfixB v2 v1 then 4 / 5
    else
      let words1 := (pySplit v1).dedup
      let words2 := (pySplit v2).dedup
      if words1.isEmpty || words2.isEmpty then 0
      else
        let inter := (words1.filter (fun w => w ∈ words2)).length
        let union := ((words1 ++ words2).dedup).length
        if 0 < union then (inter : ℚ) / (union : ℚ) else 0

/-- `ConfidenceCalculator.MIN_MATCH_SCORE`. -/
def MIN_MATCH_SCORE : ℚ := 50

/-- Embedding of `ConfidenceCalculator.calculate_match_confidence`: weighted
sum of the three criteria (50 / 30 / similarity × 20), clamped to `[0,100]`,
valid when the score reaches `MIN_MATCH_SCORE`. -/
def calculate_match_confidence (invoice_match amount_consistent : Bool)
    (vendor_similarity : ℚ) : ℚ × Bool :=
  let s1 : ℚ := if invoice_match then 50 else 0
  let s2 : ℚ := s1 + (if amount_consistent then 30 else 0)
  let s3 : ℚ := s2 + vendor_similarity * 20
  let score : ℚ := min 100 (max 0 s3)
  (score, decide (MIN_MATCH_SCORE ≤ score))

example : normalize_invoice_number "INV-12345".toList = "12345".toList := by decide
example : normalize_invoice_number "No. 12345".toList = "12345".toList := by decide
example : normalize_invoice_number "INVOICE: 12345".toList = "OICE12345".toList := by decide
example : quantize (50011 / 1000) = 5001 / 100 := by
  norm_num [quantize, roundHalfUpCents]
example : amounts_consistent (1 / 100) 50 (50011 / 1000) = true := by
  norm_num [amounts_consistent, amounts_match, quantize, roundHalfUpCents, abs_le, lt_abs]
example : amounts_consistent (1 / 100) 100 (-100) = true := by
  norm_num [amounts_consistent, amounts_match, quantize, roundHalfUpCents, abs_le, lt_abs]
example : amounts_consistent (1 / 100) 50 (5002 / 100) = false := by
  norm_num [amounts_consistent, amounts_match, quantize, roundHalfUpCents, abs_le, lt_abs]
example : normalize_amount (.strV "abc".toList) = .error .invalidOperation := by rfl
example : normalize_amount .noneV = .error .invalidOperation := by rfl
example : calculate_similarity "ACME EAD".toList "ACME".toList = 4 / 5 := by
  with_unfolding_all decide
example : calculate_similarity "ACME LTD".toList "ACME GMBH".toList = 1 / 3 := by
  with_unfolding_all decide
example : calculate_similarity " ACME ".toList "ACME".toList = 1 := by
  with_unfolding_all decide
example : calculate_match_confidence true false 0 = (50, true) := by
  with_unfolding_all decide
example : calculate_match_confidence false true (49 / 100) = (199 / 5, false) := by
  with_unfolding_all decide

/-! ## Domain models (`models.py`) and the reconciliation service (`service.py`)

Only the fields the service reads take part in matching: `invoice_number`,
`vendor_normalized` and `total_amount_eur`.  The service is constructed with
the default `amount_tolerance = Decimal('0.01')`, so the amount functions
below are instantiated at tolerance `1/100`. -/

/-- The fields of `models.Invoice` consumed by `ReconciliationService`. -/
structure Invoice where
  invoice_number : PyStr
  vendor_normalized : PyStr
  total_amount_eur : ℚ
deriving DecidableEq

/-- `models.Discrepancy` as produced by `_find_discrepancies` (kind
`'amount'`, with the two raw amounts and the reported difference). -/
structure Discrepancy where
  dtype : PyStr
  evd_value : ℚ
  pdf_value : ℚ
  difference : ℚ
deriving DecidableEq

/-- `models.InvoiceMatch`: a pairing of an EVD invoice with an optional PDF
invoice, a confidence score and the discrepancy list. -/
structure InvoiceMatch where
  evd_invoice : Invoice
  pdf_invoice : Option Invoice
  confidence : ℚ
  discrepancies : List Discrepancy
deriving DecidableEq

/-- `models.ReconciliationResult`: the four output lists. -/
structure ReconciliationResult where
  «matches» : List InvoiceMatch
  mismatches : List InvoiceMatch
  missing_in_pdf : List Invoice
  missing_in_evd : List Invoice
deriving DecidableEq

/-- `models.InvoiceMatch.is_perfect_match`: no discrepancies. -/
def InvoiceMatch.is_perfect_match (m : InvoiceMatch) : Bool :=
  m.discrepancies.isEmpty

/-- `models.ReconciliationResult.total_evd`: EVD invoices processed. -/
def total_evd (r : ReconciliationResult) : ℕ :=
  r.«matches».length + r.mismatches.length + r.missing_in_pdf.length

/-- `models.ReconciliationResult.match_rate`: percentage of perfect matches,
`0` when no EVD invoice was processed. -/
def match_rate (r : ReconciliationResult) : ℚ :=
  if total_evd r = 0 then 0 else (r.«matches».length : ℚ) / (total_evd r : ℚ) * 100

/-- The claim-tracking key of `ReconciliationService._get_invoice_key`:
`(vendor_normalized, normalized invoice number)`. -/
abbrev InvKey := PyStr × PyStr

/-- Embedding of `ReconciliationService._get_invoice_key`. -/
def get_invoice_key (inv : Invoice) : InvKey :=
  (inv.vendor_normalized, normalize_invoice_number inv.invoice_number)

/-- Embedding of `ReconciliationService._calculate_match_score` (with the
default tolerance `0.01`): invoice-number criterion (equality of non-empty
normalized numbers), amount consistency, vendor similarity, combined by
`calculate_match_confidence`. -/
def calculate_match_score (evd_invoice pdf_invoice : Invoice) : ℚ × Bool :=
  let evd_num := normalize_invoice_number evd_invoice.invoice_number
  let pdf_num := normalize_invoice_number pdf_invoice.invoice_number
  let invoice_match : Bool :=
    if evd_num.isEmpty || pdf_num.isEmpty then false else evd_num == pdf_num
  let amount_consistent :=
    amounts_consistent (1 / 100) evd_invoice.total_amount_eur pdf_invoice.total_amount_eur
  let vendor_similarity :=
    calculate_similarity evd_invoice.vendor_normalized pdf_invoice.vendor_normalized
  calculate_match_confidence invoice_match amount_consistent vendor_similarity

/-- Embedding of `ReconciliationService._find_discrepancies`: an `'amount'`
discrepancy when the amounts are inconsistent, nothing otherwise. -/
def find_discrepancies (evd_invoice pdf_invoice : Invoice) : List Discrepancy :=
  if amounts_consistent (1 / 100) evd_invoice.total_amount_eur pdf_invoice.total_amount_eur
  then []
  else [{ dtype := "amount".toList,
          evd_value := evd_invoice.total_amount_eur,
          pdf_value := pdf_invoice.total_amount_eur,
          difference := calculate_difference (1 / 100) evd_invoice.total_amount_eur
            pdf_invoice.total_amount_eur }]

/-- The candidate loop of `ReconciliationService._match_evd_invoice`:
running best match and best score (initially `None`, `0.0`); a candidate
whose key is claimed is skipped; an unclaimed candidate replaces the running
best exactly when its score is valid and strictly higher. -/
def bestCandidate (evd_invoice : Invoice) (claimed : List InvKey) :
    List Invoice → Option Invoice × ℚ → Option Invoice × ℚ
  | [], acc => acc
  | p :: rest, acc =>
    if get_invoice_key p ∈ claimed then bestCandidate evd_invoice claimed rest acc
    else if (calculate_match_score evd_invoice p).2 = true ∧
        acc.2 < (calculate_match_score evd_invoice p).1 then
      bestCandidate evd_invoice claimed rest (some p, (calculate_match_score evd_invoice p).1)
    else bestCandidate evd_invoice claimed rest acc

/-- Embedding of `ReconciliationService._match_evd_invoice`: candidates are
the PDF invoices in the EVD invoice's `vendor_normalized` group (the service
groups `pdf_invoices` by `vendor_normalized`, preserving input order); the
best unclaimed valid candidate, if any, is claimed and returned as an
`InvoiceMatch` carrying its score and discrepancies.  The returned list is
the updated claimed-key set. -/
def match_evd_invoice (evd_invoice : Invoice) (pdf_invoices : List Invoice)
    (claimed : List InvKey) : Option InvoiceMatch × List InvKey :=
  let candidate_pdfs :=
    pdf_invoices.filter (fun p => p.vendor_normalized == evd_invoice.vendor_normalized)
  match bestCandidate evd_invoice claimed candidate_pdfs (none, 0) with
  | (none, _) => (none, claimed)
  | (some best_match, best_score) =>
    (some { evd_invoice := evd_invoice,
            pdf_invoice := some best_match,
            confidence := best_score,
            discrepancies := find_discrepancies evd_invoice best_match },
     get_invoice_key best_match :: claimed)

/-- The main loop of `ReconciliationService.reconcile`, processing EVD
invoices in input order while threading the claimed-key set; at the end the
PDF invoices whose key was never claimed form `missing_in_evd` (in input
order). -/
def reconcileAux (pdf_invoices : List Invoice) :
    List Invoice → List InvKey → ReconciliationResult
  | [], claimed =>
    { «matches» := [], mismatches := [], missing_in_pdf := [],
      missing_in_evd :=
        pdf_invoices.filter (fun p => decide (get_invoice_key p ∉ claimed)) }
  | evd_invoice :: rest, claimed =>
    match match_evd_invoice evd_invoice pdf_invoices claimed with
    | (none, claimed1) =>
      let r := reconcileAux pdf_invoices rest claimed1
      { r with missing_in_pdf := evd_invoice :: r.missing_in_pdf }
    | (some m, claimed1) =>
      let r := reconcileAux pdf_invoices rest claimed1
      if m.is_perfect_match then { r with «matches» := m :: r.«matches» }
      else { r with mismatches := m :: r.mismatches }

/-- Embedding of `ReconciliationService.reconcile` (called without a
precomputed `pdf_by_vendor`, which the service then derives by grouping —
`match_evd_invoice` looks candidates up by the grouping key). -/
def reconcile (evd_invoices pdf_invoices : List Invoice) : ReconciliationResult :=
  reconcileAux pdf_invoices evd_invoices []

/-! ## A concrete scenario

`invA0` is an EVD invoice; `invP0` and `invP1` are PDF invoices sharing one
claim-tracking key `("ACME", "1")` (same vendor, same normalized number,
different amounts); `invP2` has the distinct key `("ACME", "2")`. -/

/-- EVD invoice `1` / `ACME` / `100.00`. -/
def invA0 : Invoice :=
  { invoice_number := "1".toList, vendor_normalized := "ACME".toList,
    total_amount_eur := 100 }

/-- PDF invoice `1` / `ACME` / `100.00`. -/
def invP0 : Invoice :=
  { invoice_number := "1".toList, vendor_normalized := "ACME".toList,
    total_amount_eur := 100 }

/-- PDF invoice `1` / `ACME` / `200.00` — same key as `invP0`. -/
def invP1 : Invoice :=
  { invoice_number := "1".toList, vendor_normalized := "ACME".toList,
    total_amount_eur := 200 }

/-- PDF invoice `2` / `ACME` / `200.00` — key distinct from `invP0`. -/
def invP2 : Invoice :=
  { invoice_number := "2".toList, vendor_normalized := "ACME".toList,
    total_amount_eur := 200 }

/-- The match produced for `invA0` against `invP0`. -/
def matchM0 : InvoiceMatch :=
  { evd_invoice := invA0, pdf_invoice := some invP0, confidence := 100,
    discrepancies := [] }

theorem amounts_100_100 : amounts_consistent (1 / 100) 100 100 = true := by
  norm_num [amounts_consistent, amounts_match, quantize, roundHalfUpCents, abs_le, lt_abs]

theorem amounts_100_200 : amounts_consistent (1 / 100) 100 200 = false := by
  norm_num [amounts_consistent, amounts_match, quantize, roundHalfUpCents, abs_le, lt_abs]

theorem sim_ACME_ACME : calculate_similarity "ACME".toList "ACME".toList = 1 := by
  with_unfolding_all decide

theorem score_A0_P0 : calculate_match_score invA0 invP0 = (100, true) := by
  have hn : normalize_invoice_number invA0.invoice_number = "1".toList := by decide
  have hp : normalize_invoice_number invP0.invoice_number = "1".toList := by decide
  have ha : invA0.total_amount_eur = 100 := rfl
  have hb : invP0.total_amount_eur = 100 := rfl
  have hv : calculate_similarity invA0.vendor_normalized invP0.vendor_normalized = 1 := by
    with_unfolding_all decide
  simp only [calculate_match_score, hn, hp, ha, hb, hv, amounts_100_100]
  norm_num [calculate_match_confidence, MIN_MATCH_SCORE]

theorem score_A0_P1 : calculate_match_score invA0 invP1 = (70, true) := by
  have hn : normalize_invoice_number invA0.invoice_number = "1".toList := by decide
  have hp : normalize_invoice_number invP1.invoice_number = "1".toList := by decide
  have ha : invA0.total_amount_eur = 100 := rfl
  have hb : invP1.total_amount_eur = 200 := rfl
  have hv : calculate_similarity invA0.vendor_normalized invP1.vendor_normalized = 1 := by
    with_unfolding_all decide
  simp only [calculate_match_score, hn, hp, ha, hb, hv, amounts_100_200]
  norm_num [calculate_match_confidence, MIN_MATCH_SCORE]

theorem matchEvd_A0_eval :
    match_evd_invoice invA0 [invP0, invP1] [] =
      (some matchM0, [("ACME".toList, "1".toList)]) := by
  have hf : List.filter (fun p => p.vendor_normalized == invA0.vendor_normalized)
      [invP0, invP1] = [invP0, invP1] := by with_unfolding_all decide
  have hk0 : get_invoice_key invP0 = ("ACME".toList, "1".toList) := by decide
  have ha : invA0.total_amount_eur = 100 := rfl
  have hp : invP0.total_amount_eur = 100 := rfl
  simp only [match_evd_invoice, hf, bestCandidate, List.mem_nil_iff, if_false,
    score_A0_P0, score_A0_P1]
  norm_num [find_discrepancies, ha, hp, amounts_100_100, hk0, matchM0]

theorem reconcile_A0_eval :
    reconcile [invA0] [invP0, invP1] =
      { «matches» := [matchM0], mismatches := [], missing_in_pdf := [],
        missing_in_evd := [] } := by
  have hmiss : List.filter
      (fun p => decide (get_invoice_key p ∉ [("ACME".toList, "1".toList)]))
      [invP0, invP1] = [] := by decide
  have hperf : matchM0.is_perfect_match = true := rfl
  simp only [reconcile, reconcileAux, matchEvd_A0_eval, hmiss, hperf, if_true]

/-! ## Structural lemmas about the matching loop -/

/-- Case analysis of the candidate loop: it either returns the accumulator
unchanged, or selects some unclaimed candidate with a valid score. -/
theorem bestCandidate_cases (evd : Invoice) (claimed : List InvKey) :
    ∀ (cands : List Invoice) (acc : Option Invoice × ℚ),
      bestCandidate evd claimed cands acc = acc ∨
      ∃ p ∈ cands, get_invoice_key p ∉ claimed ∧
        (calculate_match_score evd p).2 = true ∧
        bestCandidate evd claimed cands acc =
          (some p, (calculate_match_score evd p).1)
  | [], acc => Or.inl rfl
  | p :: rest, acc => by
    by_cases hcl : get_invoice_key p ∈ claimed
    · rw [bestCandidate, if_pos hcl]
      rcases bestCandidate_cases evd claimed rest acc with h | ⟨q, hq, h1, h2, h3⟩
      · exact Or.inl h
      · exact Or.inr ⟨q, List.mem_cons_of_mem _ hq, h1, h2, h3⟩
    · rw [bestCandidate, if_neg hcl]
      by_cases hsel : (calculate_match_score evd p).2 = true ∧
          acc.2 < (calculate_match_score evd p).1
      · rw [if_pos hsel]
        rcases bestCandidate_cases evd claimed rest
            (some p, (calculate_match_score evd p).1) with h | ⟨q, hq, h1, h2, h3⟩
        · exact Or.inr ⟨p, List.mem_cons_self _ _, hcl, hsel.1, h⟩
        · exact Or.inr ⟨q, List.mem_cons_of_mem _ hq, h1, h2, h3⟩
      · rw [if_neg hsel]
        rcases bestCandidate_cases evd claimed rest acc with h | ⟨q, hq, h1, h2, h3⟩
        · exact Or.inl h
        · exact Or.inr ⟨q, List.mem_cons_of_mem _ hq, h1, h2, h3⟩

/-- Case analysis of `_match_evd_invoice`: either no match and the claimed
set is unchanged, or some PDF invoice from the input list, unclaimed and with
a valid score, is selected, claimed, and wrapped in an `InvoiceMatch`. -/
theorem match_evd_invoice_cases (evd : Invoice) (pdfs : List Invoice)
    (claimed : List InvKey) :
    match_evd_invoice evd pdfs claimed = (none, claimed) ∨
    ∃ p, p ∈ pdfs ∧ get_invoice_key p ∉ claimed ∧
      (calculate_match_score evd p).2 = true ∧
      match_evd_invoice evd pdfs claimed =
        (some { evd_invoice := evd, pdf_invoice := some p,
                confidence := (calculate_match_score evd p).1,
                discrepancies := find_discrepancies evd p },
         get_invoice_key p :: claimed) := by
  rcases bestCandidate_cases evd claimed
      (pdfs.filter (fun p => p.vendor_normalized == evd.vendor_normalized))
      (none, 0) with h | ⟨p, hp, h1, h2, h3⟩
  · left
    rw [match_evd_invoice]
    rw [h]
  · right
    refine ⟨p, (List.mem_filter.1 hp).1, h1, h2, ?_⟩
    rw [match_evd_invoice]
    rw [h3]

/-- Keys of the PDF invoices carried by a list of matches. -/
def pairKeys (L : List InvoiceMatch) : List InvKey :=
  L.filterMap (fun m => m.pdf_invoice.map get_invoice_key)

theorem pairKeys_append (A B : List InvoiceMatch) :
    pairKeys (A ++ B) = pairKeys A ++ pairKeys B :=
  List.filterMap_append A B _

theorem pairKeys_cons_some {m : InvoiceMatch} {p : Invoice}
    (h : m.pdf_invoice = some p) (L : List InvoiceMatch) :
    pairKeys (m :: L) = get_invoice_key p :: pairKeys L := by
  simp [pairKeys, List.filterMap_cons, h]

/-- Authoritative-side conservation: every EVD invoice lands in exactly one
of `matches`, `mismatches`, `missing_in_pdf`. -/
theorem reconcileAux_evd_conservation (pdfs : List Invoice) :
    ∀ (evds : List Invoice) (claimed : List InvKey),
      (reconcileAux pdfs evds claimed).«matches».length +
        (reconcileAux pdfs evds claimed).mismatches.length +
        (reconcileAux pdfs evds claimed).missing_in_pdf.length = evds.length := by
  intro evds
  induction evds with
  | nil => intro claimed; simp [reconcileAux]
  | cons evd rest ih =>
    intro claimed
    rcases match_evd_invoice_cases evd pdfs claimed with hnone | ⟨p, _, _, _, hsome⟩
    · simp only [reconcileAux, hnone]
      have := ih claimed
      simp only [List.length_cons]
      omega
    · simp only [reconcileAux, hsome]
      have := ih (get_invoice_key p :: claimed)
      split
      · simp only [List.length_cons]
        omega
      · simp only [List.length_cons]
        omega

/-- The aggregation criterion: `matches` holds exactly the pairs with an
empty discrepancy list, `mismatches` those with a non-empty one. -/
theorem reconcileAux_split (pdfs : List Invoice) :
    ∀ (evds : List Invoice) (claimed : List InvKey),
      (∀ m ∈ (reconcileAux pdfs evds claimed).«matches», m.discrepancies = []) ∧
      (∀ m ∈ (reconcileAux pdfs evds claimed).mismatches, m.discrepancies ≠ []) := by
  intro evds
  induction evds with
  | nil => intro claimed; simp [reconcileAux]
  | cons evd rest ih =>
    intro claimed
    rcases match_evd_invoice_cases evd pdfs claimed with hnone | ⟨p, _, _, _, hsome⟩
    · simp only [reconcileAux, hnone]
      exact ih claimed
    · obtain ⟨ih1, ih2⟩ := ih (get_invoice_key p :: claimed)
      simp only [reconcileAux, hsome]
      split
      · rename_i hperf
        constructor
        · intro m hm
          rcases List.mem_cons.1 hm with hm | hm
          · subst hm
            simpa [InvoiceMatch.is_perfect_match, List.isEmpty_iff] using hperf
          · exact ih1 m hm
        · exact ih2
      · rename_i hperf
        constructor
        · exact ih1
        · intro m hm
          rcases List.mem_cons.1 hm with hm | hm
          · subst hm
            simpa [InvoiceMatch.is_perfect_match, List.isEmpty_iff] using hperf
          · exact ih2 m hm

/-- Key census of the matching loop.  For some final claimed-key list `cl'`:
(i) `missing_in_evd` consists of the input PDF invoices whose key is not in
`cl'`; (ii) as a multiset `cl'` is the keys of the PDF invoices of the
emitted pairs plus the initial claimed keys; (iii) starting from a
duplicate-free claimed list, `cl'` is duplicate-free (no key is ever claimed
twice); (iv) every key of `cl'` is an initial key or the key of an input PDF
invoice; (v) every emitted pair carries some input PDF invoice together with
its (valid) score. -/
theorem reconcileAux_keys (pdfs : List Invoice) :
    ∀ (evds : List Invoice) (claimed : List InvKey),
      ∃ cl' : List InvKey,
        (reconcileAux pdfs evds claimed).missing_in_evd =
          pdfs.filter (fun p => decide (get_invoice_key p ∉ cl')) ∧
        (cl' : Multiset InvKey) =
          (↑(pairKeys ((reconcileAux pdfs evds claimed).«matches» ++
              (reconcileAux pdfs evds claimed).mismatches)) : Multiset InvKey) +
            (claimed : Multiset InvKey) ∧
        (claimed.Nodup → cl'.Nodup) ∧
        (∀ k ∈ cl', k ∈ claimed ∨ ∃ p ∈ pdfs, k = get_invoice_key p) ∧
        (∀ m ∈ (reconcileAux pdfs evds claimed).«matches» ++
            (reconcileAux pdfs evds claimed).mismatches,
          ∃ p, m.pdf_invoice = some p ∧ p ∈ pdfs ∧
            (calculate_match_score m.evd_invoice p).2 = true ∧
            m.confidence = (calculate_match_score m.evd_invoice p).1) := by
  intro evds
  induction evds with
  | nil =>
    intro claimed
    refine ⟨claimed, ?_, ?_, fun h => h, fun k hk => Or.inl hk, ?_⟩
    · simp [reconcileAux]
    · simp [reconcileAux, pairKeys]
    · simp [reconcileAux]
  | cons evd rest ih =>
    intro claimed
    rcases match_evd_invoice_cases evd pdfs claimed with hnone | ⟨p, hp, hpcl, hval, hsome⟩
    · obtain ⟨cl', h1, h2, h3, h4, h5⟩ := ih claimed
      refine ⟨cl', ?_, ?_, h3, h4, ?_⟩
      · simpa only [reconcileAux, hnone] using h1
      · simpa only [reconcileAux, hnone] using h2
      · simpa only [reconcileAux, hnone] using h5
    · obtain ⟨cl', h1, h2, h3, h4, h5⟩ := ih (get_invoice_key p :: claimed)
      refine ⟨cl', ?_, ?_, ?_, ?_, ?_⟩
      · simp only [reconcileAux, hsome]
        split <;> simpa using h1
      · simp only [reconcileAux, hsome]
        split <;>
        · simp only [pairKeys_append,
            pairKeys_cons_some (show (⟨evd, some p,
              (calculate_match_score evd p).1, find_discrepancies evd p⟩ :
                InvoiceMatch).pdf_invoice = some p from rfl)]
          rw [h2]
          simp [pairKeys_append, ← Multiset.coe_add, Multiset.cons_add,
            Multiset.add_cons, ← Multiset.cons_coe]
      · intro hnd
        exact h3 (List.nodup_cons.2 ⟨hpcl, hnd⟩)
      · intro k hk
        rcases h4 k hk with hk' | hk'
        · rcases List.mem_cons.1 hk' with hk'' | hk''
          · exact Or.inr ⟨p, hp, hk''⟩
          · exact Or.inl hk''
        · exact Or.inr hk'
      · intro m
        simp only [reconcileAux, hsome]
        split
        · intro hm
          have hm2 : m = (⟨evd, some p, (calculate_match_score evd p).1,
              find_discrepancies evd p⟩ : InvoiceMatch) ∨
              m ∈ (reconcileAux pdfs rest (get_invoice_key p :: claimed)).«matches» ∨
              m ∈ (reconcileAux pdfs rest (get_invoice_key p :: claimed)).mismatches := by
            simpa using hm
          rcases hm2 with h | h | h
          · subst h; exact ⟨p, rfl, hp, hval, rfl⟩
          · exact h5 m (List.mem_append.2 (Or.inl h))
          · exact h5 m (List.mem_append.2 (Or.inr h))
        · intro hm
          have hm2 : m ∈ (reconcileAux pdfs rest (get_invoice_key p :: claimed)).«matches» ∨
              m = (⟨evd, some p, (calculate_match_score evd p).1,
                find_discrepancies evd p⟩ : InvoiceMatch) ∨
              m ∈ (reconcileAux pdfs rest (get_invoice_key p :: claimed)).mismatches := by
            simpa using hm
          rcases hm2 with h | h | h
          · exact h5 m (List.mem_append.2 (Or.inl h))
          · subst h; exact ⟨p, rfl, hp, hval, rfl⟩
          · exact h5 m (List.mem_append.2 (Or.inr h))

/-- A valid flag from the scorer means the score reached
`MIN_MATCH_SCORE`. -/
theorem match_score_valid_iff (e p : Invoice) :
    (calculate_match_score e p).2 = true ↔
      MIN_MATCH_SCORE ≤ (calculate_match_score e p).1 := by
  simp [calculate_match_score, calculate_match_confidence]

/-- If the keys extracted from a list are duplicate-free, no single key value
is extracted from two different positions. -/
theorem countP_le_one_of_nodup_filterMap {α β : Type} [DecidableEq β]
    {L : List α} {f : α → Option β} (h : (L.filterMap f).Nodup) (b : β) :
    L.countP (fun a => decide (f a = some b)) ≤ 1 := by
  induction L with
  | nil => simp
  | cons a l ih =>
    rw [List.countP_cons]
    by_cases hfa : f a = some b
    · rw [List.filterMap_cons_some hfa, List.nodup_cons] at h
      have hz : l.countP (fun x => decide (f x = some b)) = 0 := by
        rw [List.countP_eq_zero]
        intro x hx hdx
        exact h.1 (List.mem_filterMap.2 ⟨x, hx, of_decide_eq_true hdx⟩)
      simp [hfa, hz]
    · have h' : (l.filterMap f).Nodup := by
        cases hfa' : f a with
        | none => rwa [List.filterMap_cons_none hfa'] at h
        | some c => exact (List.nodup_cons.1 (by rwa [List.filterMap_cons_some hfa'] at h)).2
      simpa [hfa] using ih h'

/-- When every match in a list carries a PDF invoice, the key list has the
same length. -/
theorem pairKeys_length_of_total {L : List InvoiceMatch}
    (h : ∀ m ∈ L, ∃ p, m.pdf_invoice = some p) :
    (pairKeys L).length = L.length := by
  induction L with
  | nil => rfl
  | cons m l ih =>
    obtain ⟨p, hp⟩ := h m (List.mem_cons_self m l)
    rw [pairKeys_cons_some hp, List.length_cons, List.length_cons,
      ih (fun m' hm' => h m' (List.mem_cons_of_mem _ hm'))]

/-- Counting invoices by key membership: with duplicate-free invoice keys and
a duplicate-free key list drawn from them, the filter retains exactly one
invoice per key. -/
theorem length_filter_key_mem {A : List Invoice} :
    ∀ {ks : List InvKey}, (A.map get_invoice_key).Nodup → ks.Nodup →
    (∀ k ∈ ks, k ∈ A.map get_invoice_key) →
    (A.filter (fun p => decide (get_invoice_key p ∈ ks))).length = ks.length := by
  induction A with
  | nil =>
    intro ks _ _ hsub
    cases ks with
    | nil => rfl
    | cons k ks => simpa using hsub k (List.mem_cons_self k ks)
  | cons a A ih =>
    intro ks hA hks hsub
    rw [List.map_cons, List.nodup_cons] at hA
    by_cases hk : get_invoice_key a ∈ ks
    · rw [List.filter_cons_of_pos (by simpa using hk)]
      have hfe : A.filter (fun p => decide (get_invoice_key p ∈ ks)) =
          A.filter (fun p => decide (get_invoice_key p ∈ ks.erase (get_invoice_key a))) := by
        apply List.filter_congr
        intro p hpA
        have hne : get_invoice_key p ≠ get_invoice_key a := by
          intro hEq
          exact hA.1 (hEq ▸ List.mem_map_of_mem get_invoice_key hpA)
        simp [List.mem_erase_of_ne hne]
      have hsub' : ∀ k ∈ ks.erase (get_invoice_key a), k ∈ A.map get_invoice_key := by
        intro k hkmem
        obtain ⟨hne, hkks⟩ := hks.mem_erase_iff.1 hkmem
        rcases List.mem_cons.1 (hsub k hkks) with h | h
        · exact absurd h hne
        · exact h
      rw [List.length_cons, hfe, ih hA.2 (hks.erase _) hsub']
      have := List.length_erase_of_mem hk
      have hpos : 0 < ks.length := List.length_pos.2 (List.ne_nil_of_mem hk)
      omega
    · rw [List.filter_cons_of_neg (by simpa using hk)]
      apply ih hA.2 hks
      intro k hkks
      rcases List.mem_cons.1 (hsub k hkks) with h | h
      · exact absurd (h ▸ hkks) hk
      · exact h

/-- Distinct keys identify invoices within a list. -/
theorem invoice_eq_of_key_eq {A : List Invoice}
    (hA : (A.map get_invoice_key).Nodup) {p q : Invoice}
    (hp : p ∈ A) (hq : q ∈ A)
    (h : get_invoice_key p = get_invoice_key q) : p = q :=
  List.inj_on_of_nodup_map hA hp hq h

/-! ## Claims about the rules module -/

/-- C3: for well-formed numeric input `normalize_amount` quantizes
round-half-up, but an unparseable string — or `None`, via `str(None) =
"None"` — makes the `Decimal` constructor raise `decimal.InvalidOperation`,
which the `except (ValueError, TypeError, AttributeError)` clause does not
catch: contrary to the claim (and to the function's own docstring), the
exception escapes instead of yielding `0.00`. -/
theorem C3_normalize_amount_raises :
    normalize_amount (PyVal.strV "abc".toList) = Except.error PyExn.invalidOperation ∧
    normalize_amount PyVal.noneV = Except.error PyExn.invalidOperation ∧
    normalize_amount (PyVal.num (12345 / 1000)) = Except.ok (247 / 20) := by
  refine ⟨rfl, rfl, ?_⟩
  simp only [normalize_amount]
  norm_num [quantize, roundHalfUpCents]

/-- C4 counterexample: contrary to the claim, `consistent(50.00, 50.011)` is
`true` with tolerance `0.01`, because both amounts are quantized first and
`50.011` rounds to `50.01`, whose distance to `50.00` is exactly the
tolerance. -/
theorem C4_counterexample :
    amounts_consistent (1 / 100) 50 (50011 / 1000) = true := by
  norm_num [amounts_consistent, amounts_match, quantize, roundHalfUpCents, abs_le, lt_abs]

/-- C4 (amended): with tolerance `0.01`, `consistent(50.00, 50.011)` is true
(quantization maps `50.011` to `50.01` before comparing, `|diff| = 0.01 ≤
0.01`), `consistent(50.00, 50.01)` is true, and the boundary shows on
already-quantized input: `consistent(50.00, 50.02)` is false. -/
theorem C4_tolerance_boundary :
    amounts_consistent (1 / 100) 50 (50011 / 1000) = true ∧
    amounts_consistent (1 / 100) 50 (5001 / 100) = true ∧
    amounts_consistent (1 / 100) 50 (5002 / 100) = false := by
  refine ⟨?_, ?_, ?_⟩ <;>
    norm_num [amounts_consistent, amounts_match, quantize, roundHalfUpCents, abs_le, lt_abs]

/-- §4.2's consistency disjunction, written from the spec: direct equality,
sign-flipped equality, or magnitude equality, each within tolerance. -/
abbrev consistent_spec (tol a b : ℚ) : Prop :=
  |a - b| ≤ tol ∨ |a - -b| ≤ tol ∨ abs (|a| - |b|) ≤ tol

/-- C5: on 2-decimal-place amounts (fixed points of quantization, the domain
of `Decimal` amounts), `amounts_consistent` decides exactly the spec's
three-way disjunction, and `calculate_difference` returns `0` on consistent
pairs and the raw absolute difference otherwise. -/
theorem C5_consistency_rules (tol a b : ℚ)
    (ha : quantize a = a) (hb : quantize b = b) :
    (amounts_consistent tol a b = true ↔ consistent_spec tol a b) ∧
    calculate_difference tol a b = if consistent_spec tol a b then 0 else |a - b| := by
  have h1 : amounts_consistent tol a b = true ↔ consistent_spec tol a b := by
    simp [amounts_consistent, amounts_match, ha, hb, consistent_spec, or_assoc]
  refine ⟨h1, ?_⟩
  by_cases h : consistent_spec tol a b
  · rw [calculate_difference, if_pos (h1.2 h), if_pos h]
  · rw [calculate_difference, if_neg ?_, if_neg h, ha, hb]
    intro hc
    exact h (h1.1 hc)

/-- Witness for C5 — the spec's own sign-convention example `100.00` versus
`-100.00` at tolerance `0.01`: consistent, difference `0.00`. -/
theorem C5_witness :
    (amounts_consistent (1 / 100) 100 (-100) = true ↔
      consistent_spec (1 / 100) 100 (-100)) ∧
    calculate_difference (1 / 100) 100 (-100) =
      if consistent_spec (1 / 100) 100 (-100) then 0 else |(100 : ℚ) - -100| :=
  C5_consistency_rules (1 / 100) 100 (-100)
    (by norm_num [quantize, roundHalfUpCents])
    (by norm_num [quantize, roundHalfUpCents])

/-- §4.4's confidence formula, written from the spec: `50·[invoice match] +
30·[amount consistent] + similarity·20`, clamped to `[0, 100]`. -/
def confidence_spec (invoice_match amount_consistent : Bool)
    (vendor_similarity : ℚ) : ℚ :=
  min 100 (max 0 ((if invoice_match then (50 : ℚ) else 0) +
    (if amount_consistent then (30 : ℚ) else 0) + vendor_similarity * 20))

/-- C6: the scorer computes the spec's clamped weighted sum with
`is_valid = (score ≥ 50)`; the score always lies in `[0, 100]`; an
invoice-number match alone scores `50` and is valid; amount consistency plus
vendor similarity `0.49` scores `39.8` and is invalid. -/
theorem C6_confidence (im ac : Bool) (vs : ℚ) :
    calculate_match_confidence im ac vs =
      (confidence_spec im ac vs, decide (50 ≤ confidence_spec im ac vs)) ∧
    (0 ≤ (calculate_match_confidence im ac vs).1 ∧
      (calculate_match_confidence im ac vs).1 ≤ 100) ∧
    ((calculate_match_confidence im ac vs).2 = true ↔
      50 ≤ (calculate_match_confidence im ac vs).1) ∧
    calculate_match_confidence true false 0 = (50, true) ∧
    calculate_match_confidence false true (49 / 100) = (199 / 5, false) := by
  refine ⟨rfl, ⟨?_, ?_⟩, ?_, ?_, ?_⟩
  · exact le_min (by norm_num) (le_max_left 0 _)
  · exact min_le_left 100 _
  · simp [calculate_match_confidence, MIN_MATCH_SCORE]
  · with_unfolding_all decide
  · with_unfolding_all decide

/-- C7: the regex alternation lists `INV` before `INVOICE`and the rest of
the pattern can match the empty string, so on input starting with `INVOICE`
the `INV` branch wins and only `INV` is stripped: the claim's example
`"INVOICE: 12345" → "12345"` fails (the code yields `"OICE12345"`), while
the docstring's own examples hold.  The final substitution keeps `\w`, so an
underscore also survives. -/
theorem C7_invoice_number_normalization :
    normalize_invoice_number "INVOICE: 12345".toList = "OICE12345".toList ∧
    normalize_invoice_number "INVOICE: 12345".toList ≠ "12345".toList ∧
    normalize_invoice_number "INV-12345".toList = "12345".toList ∧
    normalize_invoice_number "FAKTURA: 12345".toList = "12345".toList ∧
    normalize_invoice_number "No. 12345".toList = "12345".toList ∧
    normalize_invoice_number "".toList = "".toList ∧
    normalize_invoice_number "   ".toList = "".toList ∧
    normalize_invoice_number "INV_123".toList = "_123".toList := by
  decide

/-- §4.3 read literally: similarity compares the case-folded strings as
given, without trimming (`0` for empty input, `1` for a case-insensitive
match, `0.8` for substring containment, else the word-set Jaccard index,
`0` when a word set is empty). -/
def similarity_claim (v1 v2 : PyStr) : ℚ :=
  if v1.isEmpty || v2.isEmpty then 0
  else if pyUpper v1 = pyUpper v2 then 1
  else if isInfixB (pyUpper v1) (pyUpper v2) || isInfixB (pyUpper v2) (pyUpper v1) then 4 / 5
  else
    let words1 := (pySplit (pyUpper v1)).dedup
    let words2 := (pySplit (pyUpper v2)).dedup
    if words1.isEmpty || words2.isEmpty then 0
    else ((words1.filter (fun w => w ∈ words2)).length : ℚ) /
      (((words1 ++ words2).dedup).length : ℚ)

/-- C8 counterexample: on `" ACME "` versus `"ACME"` the code trims before
comparing and returns `1.0`, while the claim's case analysis (no trimming:
the two case-folded strings differ, one contains the other) prescribes
`0.8`. -/
theorem C8_counterexample :
    calculate_similarity " ACME ".toList "ACME".toList = 1 ∧
    similarity_claim " ACME ".toList "ACME".toList = 4 / 5 ∧
    (1 : ℚ) ≠ 4 / 5 := by
  refine ⟨?_, ?_, by norm_num⟩ <;> with_unfolding_all decide

/-- §4.3 amended: all comparisons are performed on the uppercased,
whitespace-trimmed forms of the two vendor names. -/
def similarity_spec (v1 v2 : PyStr) : ℚ :=
  if v1.isEmpty || v2.isEmpty then 0
  else if pyStrip (pyUpper v1) = pyStrip (pyUpper v2) then 1
  else if isInfixB (pyStrip (pyUpper v1)) (pyStrip (pyUpper v2)) ||
      isInfixB (pyStrip (pyUpper v2)) (pyStrip (pyUpper v1)) then 4 / 5
  else
    let words1 := (pySplit (pyStrip (pyUpper v1))).dedup
    let words2 := (pySplit (pyStrip (pyUpper v2))).dedup
    if words1.isEmpty || words2.isEmpty then 0
    else ((words1.filter (fun w => w ∈ words2)).length : ℚ) /
      (((words1 ++ words2).dedup).length : ℚ)

/-- C8 (amended): `VendorMatcher.calculate_similarity` computes the spec's
case analysis on the uppercased, trimmed forms, and the two examples hold:
substring containment gives `0.8`, the word-set Jaccard index gives `1/3`. -/
theorem C8_vendor_similarity (v1 v2 : PyStr) :
    calculate_similarity v1 v2 = similarity_spec v1 v2 ∧
    calculate_similarity "ACME EAD".toList "ACME".toList = 4 / 5 ∧
    calculate_similarity "ACME LTD".toList "ACME GMBH".toList = 1 / 3 := by
  refine ⟨?_, by with_unfolding_all decide, by with_unfolding_all decide⟩
  simp only [calculate_similarity, similarity_spec]
  split_ifs with h1 h2 h3 h4 h5 <;> try rfl
  exfalso
  have hw1 : (pySplit (pyStrip (pyUpper v1))).dedup ≠ [] := by
    intro hnil
    simp [hnil] at h4
  obtain ⟨w, hw⟩ := List.exists_mem_of_ne_nil _ hw1
  exact h5 (List.length_pos.2 (List.ne_nil_of_mem
    (List.mem_dedup.2 (List.mem_append.2 (Or.inl hw)))))

/-! ## Claims about the service -/

/-- Full characterization of the candidate loop, generalized over the
accumulator: either nothing beats the running best (and the accumulator is
returned, every unclaimed valid candidate scoring at most `accS`), or the
loop returns the first candidate attaining the maximum: an unclaimed valid
candidate `p` beating `accS`, with every unclaimed valid candidate before it
scoring strictly less and every one after it scoring at most `p`'s score
(a tie keeps the earlier candidate). -/
theorem bestCandidate_spec (evd : Invoice) (claimed : List InvKey) :
    ∀ (cands : List Invoice) (accO : Option Invoice) (accS : ℚ),
      (bestCandidate evd claimed cands (accO, accS) = (accO, accS) ∧
        ∀ q ∈ cands, get_invoice_key q ∉ claimed →
          (calculate_match_score evd q).2 = true →
          (calculate_match_score evd q).1 ≤ accS) ∨
      (∃ l1 p l2, cands = l1 ++ p :: l2 ∧
        get_invoice_key p ∉ claimed ∧
        (calculate_match_score evd p).2 = true ∧
        accS < (calculate_match_score evd p).1 ∧
        bestCandidate evd claimed cands (accO, accS) =
          (some p, (calculate_match_score evd p).1) ∧
        (∀ q ∈ l1, get_invoice_key q ∉ claimed →
          (calculate_match_score evd q).2 = true →
          (calculate_match_score evd q).1 < (calculate_match_score evd p).1) ∧
        (∀ q ∈ l2, get_invoice_key q ∉ claimed →
          (calculate_match_score evd q).2 = true →
          (calculate_match_score evd q).1 ≤ (calculate_match_score evd p).1))
  | [], accO, accS => Or.inl ⟨rfl, by simp⟩
  | c :: rest, accO, accS => by
    by_cases hcl : get_invoice_key c ∈ claimed
    · rw [bestCandidate, if_pos hcl]
      rcases bestCandidate_spec evd claimed rest accO accS with
        ⟨heq, hbound⟩ | ⟨l1, p, l2, hsplit, hp1, hp2, hp3, heq, hl1, hl2⟩
      · refine Or.inl ⟨heq, ?_⟩
        intro q hq hqcl hqv
        rcases List.mem_cons.1 hq with hq' | hq'
        · exact absurd (hq' ▸ hcl) hqcl
        · exact hbound q hq' hqcl hqv
      · refine Or.inr ⟨c :: l1, p, l2, by rw [hsplit]; rfl, hp1, hp2, hp3, heq, ?_, hl2⟩
        intro q hq hqcl hqv
        rcases List.mem_cons.1 hq with hq' | hq'
        · exact absurd (hq' ▸ hcl) hqcl
        · exact hl1 q hq' hqcl hqv
    · rw [bestCandidate, if_neg hcl]
      by_cases hsel : (calculate_match_score evd c).2 = true ∧
          accS < (calculate_match_score evd c).1
      · rw [if_pos hsel]
        rcases bestCandidate_spec evd claimed rest (some c)
            (calculate_match_score evd c).1 with
          ⟨heq, hbound⟩ | ⟨l1, p, l2, hsplit, hp1, hp2, hp3, heq, hl1, hl2⟩
        · exact Or.inr ⟨[], c, rest, rfl, hcl, hsel.1, hsel.2, heq, by simp, hbound⟩
        · refine Or.inr ⟨c :: l1, p, l2, by rw [hsplit]; rfl, hp1, hp2,
            lt_trans hsel.2 hp3, heq, ?_, hl2⟩
          intro q hq hqcl hqv
          rcases List.mem_cons.1 hq with hq' | hq'
          · exact hq' ▸ hp3
          · exact hl1 q hq' hqcl hqv
      · rw [if_neg hsel]
        rcases bestCandidate_spec evd claimed rest accO accS with
          ⟨heq, hbound⟩ | ⟨l1, p, l2, hsplit, hp1, hp2, hp3, heq, hl1, hl2⟩
        · refine Or.inl ⟨heq, ?_⟩
          intro q hq hqcl hqv
          rcases List.mem_cons.1 hq with hq' | hq'
          · subst hq'
            rcases not_and_or.1 hsel with h | h
            · exact absurd hqv h
            · exact le_of_not_lt h
          · exact hbound q hq' hqcl hqv
        · refine Or.inr ⟨c :: l1, p, l2, by rw [hsplit]; rfl, hp1, hp2, hp3, heq, ?_, hl2⟩
          intro q hq hqcl hqv
          rcases List.mem_cons.1 hq with hq' | hq'
          · subst hq'
            rcases not_and_or.1 hsel with h | h
            · exact absurd hqv h
            · exact lt_of_le_of_lt (le_of_not_lt h) hp3
          · exact hl1 q hq' hqcl hqv

/-- C2: when `_match_evd_invoice` pairs an EVD invoice, the selected PDF
invoice `p` comes from the EVD invoice's `vendor_normalized` group (in the
group's input order `l1 ++ p :: l2`), its key is not yet claimed, its score
is valid, the pair carries exactly that score, and `p` is the first
candidate attaining the strictly highest valid unclaimed score: earlier
unclaimed valid candidates score strictly less, later ones at most equal
(first-encountered wins ties).  The returned claimed set is the input set
extended with `p`'s key — so `p` (and any record sharing its key) is
unavailable to every later EVD invoice, which can only select candidates
whose key is outside the grown claimed set, even if it would score higher
against `p`.  Authoritative records are processed in input order by
`reconcileAux`. -/
theorem C2_greedy_selection (evd : Invoice) (pdfs : List Invoice)
    (claimed : List InvKey) (m : InvoiceMatch) (cl : List InvKey)
    (h : match_evd_invoice evd pdfs claimed = (some m, cl)) :
    ∃ p l1 l2,
      m.evd_invoice = evd ∧
      m.pdf_invoice = some p ∧
      m.confidence = (calculate_match_score evd p).1 ∧
      m.discrepancies = find_discrepancies evd p ∧
      (calculate_match_score evd p).2 = true ∧
      get_invoice_key p ∉ claimed ∧
      cl = get_invoice_key p :: claimed ∧
      pdfs.filter (fun q => q.vendor_normalized == evd.vendor_normalized) =
        l1 ++ p :: l2 ∧
      (∀ q ∈ l1, get_invoice_key q ∉ claimed →
        (calculate_match_score evd q).2 = true →
        (calculate_match_score evd q).1 < (calculate_match_score evd p).1) ∧
      (∀ q ∈ l2, get_invoice_key q ∉ claimed →
        (calculate_match_score evd q).2 = true →
        (calculate_match_score evd q).1 ≤ (calculate_match_score evd p).1) := by
  rcases bestCandidate_spec evd claimed
      (pdfs.filter (fun q => q.vendor_normalized == evd.vendor_normalized))
      none 0 with ⟨heq, _⟩ | ⟨l1, p, l2, hsplit, hp1, hp2, _, heq, hl1, hl2⟩
  · rw [match_evd_invoice, heq] at h
    exact absurd (Prod.ext_iff.1 h).1 (by simp)
  · rw [match_evd_invoice, heq] at h
    obtain ⟨hm, hcl⟩ := Prod.ext_iff.1 h
    obtain hm := Option.some.inj hm
    exact ⟨p, l1, l2, by rw [← hm], by rw [← hm], by rw [← hm], by rw [← hm],
      hp2, hp1, hcl.symm, hsplit, hl1, hl2⟩

/-- Witness for C2 at the concrete scenario: `invA0` against
`[invP0, invP1]` with nothing claimed selects `invP0`. -/
theorem C2_witness :
    ∃ p l1 l2,
      matchM0.evd_invoice = invA0 ∧
      matchM0.pdf_invoice = some p ∧
      matchM0.confidence = (calculate_match_score invA0 p).1 ∧
      matchM0.discrepancies = find_discrepancies invA0 p ∧
      (calculate_match_score invA0 p).2 = true ∧
      get_invoice_key p ∉ ([] : List InvKey) ∧
      ("ACME".toList, "1".toList) :: ([] : List InvKey) =
        get_invoice_key p :: [] ∧
      [invP0, invP1].filter
        (fun q => q.vendor_normalized == invA0.vendor_normalized) =
        l1 ++ p :: l2 ∧
      (∀ q ∈ l1, get_invoice_key q ∉ ([] : List InvKey) →
        (calculate_match_score invA0 q).2 = true →
        (calculate_match_score invA0 q).1 < (calculate_match_score invA0 p).1) ∧
      (∀ q ∈ l2, get_invoice_key q ∉ ([] : List InvKey) →
        (calculate_match_score invA0 q).2 = true →
        (calculate_match_score invA0 q).1 ≤ (calculate_match_score invA0 p).1) := by
  obtain ⟨p, l1, l2, h1, h2, h3, h4, h5, h6, h7, h8, h9, h10⟩ :=
    C2_greedy_selection invA0 [invP0, invP1] [] matchM0
      [("ACME".toList, "1".toList)] matchEvd_A0_eval
  exact ⟨p, l1, l2, h1, h2, h3, h4, h5, h6, h7, h8, h9, h10⟩

/-- C1 counterexample: with two external records sharing one claim-tracking
key (`invP0`, `invP1`), matching `invA0` claims the key, and the unmatched
duplicate `invP1` is silently dropped: it is in no `MatchedPair` and not in
`missing_in_evd`, so `len(matches) + len(mismatches) + len(missing_in_evd)`
is `1`, not `len(external) = 2`. -/
theorem C1_counterexample :
    (reconcile [invA0] [invP0, invP1]).«matches».length +
        (reconcile [invA0] [invP0, invP1]).mismatches.length +
        (reconcile [invA0] [invP0, invP1]).missing_in_evd.length = 1 ∧
    [invP0, invP1].length = 2 ∧
    (¬ ∃ m, (m ∈ (reconcile [invA0] [invP0, invP1]).«matches» ++
        (reconcile [invA0] [invP0, invP1]).mismatches) ∧
        m.pdf_invoice = some invP1) ∧
    invP1 ∉ (reconcile [invA0] [invP0, invP1]).missing_in_evd := by
  rw [reconcile_A0_eval]
  refine ⟨rfl, rfl, ?_, by simp⟩
  rintro ⟨m, hm, hmp⟩
  simp only [List.append_nil, List.mem_singleton] at hm
  rw [hm, matchM0] at hmp
  have : invP0 = invP1 := Option.some.inj hmp
  have h200 : (100 : ℚ) = 200 := congrArg Invoice.total_amount_eur this
  norm_num at h200

/-- C1 (amended): provided the external records carry pairwise-distinct keys
`(vendor_normalized, normalized invoice number)`, the outcome partitions the
inputs: every external record appears in at most one MatchedPair (this and
the authoritative-side conservation hold even without the proviso);
`len(matches) + len(mismatches) + len(missing_in_pdf) = len(authoritative)`;
`len(matches) + len(mismatches) + len(missing_in_evd) = len(external)`; and
an external input is carried by some MatchedPair exactly when it is not in
`missing_in_evd` (with at-most-one, it appears in exactly one of the two). -/
theorem C1_partition (evds pdfs : List Invoice)
    (hN : (pdfs.map get_invoice_key).Nodup) :
    (∀ p : Invoice,
      ((reconcile evds pdfs).«matches» ++ (reconcile evds pdfs).mismatches).countP
        (fun m => decide (m.pdf_invoice = some p)) ≤ 1) ∧
    ((reconcile evds pdfs).«matches».length + (reconcile evds pdfs).mismatches.length +
      (reconcile evds pdfs).missing_in_pdf.length = evds.length) ∧
    ((reconcile evds pdfs).«matches».length + (reconcile evds pdfs).mismatches.length +
      (reconcile evds pdfs).missing_in_evd.length = pdfs.length) ∧
    (∀ p ∈ pdfs,
      (∃ m, (m ∈ (reconcile evds pdfs).«matches» ++ (reconcile evds pdfs).mismatches) ∧
        m.pdf_invoice = some p) ↔ p ∉ (reconcile evds pdfs).missing_in_evd) := by
  simp only [reconcile]
  obtain ⟨cl', h1, h2, h3, h4, h5⟩ := reconcileAux_keys pdfs evds []
  have hperm : cl'.Perm (pairKeys ((reconcileAux pdfs evds []).«matches» ++
      (reconcileAux pdfs evds []).mismatches)) := by
    have h2' := h2
    rw [show (([] : List InvKey) : Multiset InvKey) = 0 from rfl, add_zero] at h2'
    exact Multiset.coe_eq_coe.1 h2'
  have hnodup : (pairKeys ((reconcileAux pdfs evds []).«matches» ++
      (reconcileAux pdfs evds []).mismatches)).Nodup :=
    hperm.nodup_iff.1 (h3 List.nodup_nil)
  have htotal : ∀ m ∈ (reconcileAux pdfs evds []).«matches» ++
      (reconcileAux pdfs evds []).mismatches, ∃ p, m.pdf_invoice = some p :=
    fun m hm => ((h5 m hm).imp fun p hp => hp.1)
  refine ⟨?_, reconcileAux_evd_conservation pdfs evds [], ?_, ?_⟩
  · intro p
    refine le_trans (List.countP_mono_left ?_)
      (countP_le_one_of_nodup_filterMap hnodup (get_invoice_key p))
    intro m _ hdm
    have hmp : m.pdf_invoice = some p := of_decide_eq_true hdm
    simp [hmp]
  · have hlen1 : (pairKeys ((reconcileAux pdfs evds []).«matches» ++
        (reconcileAux pdfs evds []).mismatches)).length =
        ((reconcileAux pdfs evds []).«matches» ++
          (reconcileAux pdfs evds []).mismatches).length :=
      pairKeys_length_of_total htotal
    have hlen2 : cl'.length = (pairKeys ((reconcileAux pdfs evds []).«matches» ++
        (reconcileAux pdfs evds []).mismatches)).length := hperm.length_eq
    have hsub : ∀ k ∈ cl', k ∈ pdfs.map get_invoice_key := by
      intro k hk
      rcases h4 k hk with hk' | ⟨p, hp, hkp⟩
      · exact absurd hk' (List.not_mem_nil k)
      · exact hkp ▸ List.mem_map_of_mem _ hp
    have hfil : (pdfs.filter (fun p => decide (get_invoice_key p ∈ cl'))).length =
        cl'.length :=
      length_filter_key_mem hN (h3 List.nodup_nil) hsub
    have hsplit := List.length_eq_length_filter_add
      (l := pdfs) (fun p => decide (get_invoice_key p ∈ cl'))
    have hmeq : pdfs.filter (fun p => !decide (get_invoice_key p ∈ cl')) =
        pdfs.filter (fun p => decide (get_invoice_key p ∉ cl')) := by
      apply List.filter_congr
      intro p _
      simp
    rw [hmeq] at hsplit
    rw [h1]
    have happ : ((reconcileAux pdfs evds []).«matches» ++
        (reconcileAux pdfs evds []).mismatches).length =
        (reconcileAux pdfs evds []).«matches».length +
          (reconcileAux pdfs evds []).mismatches.length := List.length_append _ _
    omega
  · intro p hp
    constructor
    · rintro ⟨m, hm, hmp⟩
      have hkey : get_invoice_key p ∈ pairKeys ((reconcileAux pdfs evds []).«matches» ++
          (reconcileAux pdfs evds []).mismatches) :=
        List.mem_filterMap.2 ⟨m, hm, by rw [hmp]; rfl⟩
      have hkcl : get_invoice_key p ∈ cl' := hperm.mem_iff.2 hkey
      intro hmem
      rw [h1] at hmem
      exact (of_decide_eq_true (List.mem_filter.1 hmem).2) hkcl
    · intro hnm
      have hkcl : get_invoice_key p ∈ cl' := by
        by_contra hkn
        refine hnm ?_
        rw [h1]
        exact List.mem_filter.2 ⟨hp, decide_eq_true hkn⟩
      have hkey := hperm.mem_iff.1 hkcl
      obtain ⟨m, hm, hfm⟩ := List.mem_filterMap.1 hkey
      obtain ⟨q, hq1, hq2⟩ := Option.map_eq_some'.1 hfm
      obtain ⟨q', hq'1, hq'2, _, _⟩ := h5 m hm
      have hqq : q' = q := by
        rw [hq1] at hq'1
        exact (Option.some.inj hq'1).symm
      have hqpdfs : q ∈ pdfs := hqq ▸ hq'2
      have hqp : q = p := invoice_eq_of_key_eq hN hqpdfs hp hq2
      exact ⟨m, hm, by rw [hq1, hqp]⟩

/-- Witness for C1 at a duplicate-free external list: `invP0` and `invP2`
have distinct keys, and both conservation identities hold on the outcome of
`reconcile [invA0] [invP0, invP2]`. -/
theorem C1_witness :
    ((([invP0, invP2]).map get_invoice_key).Nodup) ∧
    (reconcile [invA0] [invP0, invP2]).«matches».length +
        (reconcile [invA0] [invP0, invP2]).mismatches.length +
        (reconcile [invA0] [invP0, invP2]).missing_in_pdf.length = 1 ∧
    (reconcile [invA0] [invP0, invP2]).«matches».length +
        (reconcile [invA0] [invP0, invP2]).mismatches.length +
        (reconcile [invA0] [invP0, invP2]).missing_in_evd.length = 2 :=
  ⟨by decide,
    (C1_partition [invA0] [invP0, invP2] (by decide)).2.1,
    (C1_partition [invA0] [invP0, invP2] (by decide)).2.2.1⟩

/-- C9: the aggregation puts exactly the pairs with an empty discrepancy
list into `matches` and those with a non-empty list into `mismatches`;
`match_rate` is `count(matches) / count(authoritative inputs) × 100` and `0`
when there are no authoritative inputs; `reconcile([], [])` yields four empty
lists and `match_rate = 0`. -/
theorem C9_aggregation (evds pdfs : List Invoice) :
    (∀ m ∈ (reconcile evds pdfs).«matches», m.discrepancies = []) ∧
    (∀ m ∈ (reconcile evds pdfs).mismatches, m.discrepancies ≠ []) ∧
    match_rate (reconcile evds pdfs) =
      (if evds.length = 0 then 0
       else ((reconcile evds pdfs).«matches».length : ℚ) / (evds.length : ℚ) * 100) ∧
    reconcile [] [] =
      { «matches» := [], mismatches := [], missing_in_pdf := [],
        missing_in_evd := [] } ∧
    match_rate (reconcile [] []) = 0 := by
  have hsplit := reconcileAux_split pdfs evds []
  have htot : total_evd (reconcile evds pdfs) = evds.length := by
    rw [total_evd]
    exact reconcileAux_evd_conservation pdfs evds []
  have hempty : reconcile [] [] =
      { «matches» := [], mismatches := [], missing_in_pdf := [],
        missing_in_evd := [] } := rfl
  refine ⟨hsplit.1, hsplit.2, ?_, hempty, ?_⟩
  · rw [match_rate, htot]
  · rw [hempty, match_rate]
    rfl

/-- Witness for C9: the empty reconciliation has match rate `0`. -/
theorem C9_witness : match_rate (reconcile [] []) = 0 :=
  (C9_aggregation [] []).2.2.2.2

/-- C10: every pair placed in `matches` or `mismatches` carries a PDF
invoice (non-null external side) and a confidence of at least
`MIN_MATCH_SCORE = 50`: no pair below the validity threshold is ever
emitted. -/
theorem C10_valid_pairs (evds pdfs : List Invoice) (m : InvoiceMatch)
    (hm : m ∈ (reconcile evds pdfs).«matches» ++ (reconcile evds pdfs).mismatches) :
    (∃ p : Invoice, m.pdf_invoice = some p) ∧ MIN_MATCH_SCORE ≤ m.confidence := by
  obtain ⟨cl', h1, h2, h3, h4, h5⟩ := reconcileAux_keys pdfs evds []
  obtain ⟨p, hp1, _, hval, hconf⟩ := h5 m hm
  exact ⟨⟨p, hp1⟩, hconf ▸ (match_score_valid_iff _ _).1 hval⟩

/-- Witness for C10 at the concrete scenario: the emitted pair `matchM0` has
a PDF invoice and confidence `100 ≥ 50`. -/
theorem C10_witness :
    (∃ p : Invoice, matchM0.pdf_invoice = some p) ∧
      MIN_MATCH_SCORE ≤ matchM0.confidence :=
  C10_valid_pairs [invA0] [invP0, invP1] matchM0
    (by rw [reconcile_A0_eval]; simp)
